import Mathlib

/-!
Shallow embedding of the ritsu proactor core (`src/src/lib.rs`).

The model translates the two source functions that the claims are about —
`Proactor::park` (lib.rs:95-160) and `LocalHandle::push` (lib.rs:173-201),
together with the shared helper `cq_drain` (lib.rs:59-68) — over an explicit
ring state.  The `io_uring` crate objects the source manipulates are modelled
at the level of the operations the source performs on them:

* the submission queue is a log of pushed entries plus a kernel head counter
  (`sqHead`); `Submitter::submit` hands every published entry to the kernel
  (advances `sqHead` to the end of the log);
* an `AvailableQueue` view of the submission queue snapshots the head and
  tail at creation time and is refreshed only by creating a new view or
  calling `sync` — the source itself relies on this (it re-creates
  `sq.available()` on every retry iteration of `LocalHandle::push`, and must
  call `cq.sync()` at lib.rs:152 before the second drain can observe fresh
  completions).  `Proactor::park` creates its `sq` view once (lib.rs:98) and
  never refreshes it, which the model reproduces with the `vhead`/`vtail`
  snapshots;
* the completion queue is a list of arrived entries; a view of it is drained
  in kernel-report order;
* kernel responses to `submit` / `submit_and_wait` calls are supplied by the
  environment (`SubmitOutcome`), as are the completions that arrive while the
  call blocks.

Tickets (`oneshot::Sender`/`Receiver`, declared in lib.rs but implemented in
the `oneshot` module that is not under `src/`) are modelled as integer
identities with a phase ledger: `raw` after `into_raw` embedded a producer
into a submission record, `delivered` once `cq_drain` reconstituted it and
`set` the completion, `dropped` if the producer were dropped unused (no code
path in `src/` performs this transition).
-/

/-- 64-bit modulus: the correlation (`user_data`) field is a `u64`. -/
def U64_MOD : Nat := 2 ^ 64

/-- `u64::wrapping_sub` on the `Nat` representation of `u64` values. -/
def u64_wrapping_sub (a b : Nat) : Nat :=
  (a % U64_MOD + (U64_MOD - b % U64_MOD)) % U64_MOD

/-- lib.rs:25 — `const EVENT_TOKEN: u64 = 0x00;` -/
def EVENT_TOKEN : Nat := 0x00

/-- lib.rs:26 — `const TIMEOUT_TOKEN: u64 = 0x00u64.wrapping_sub(1);` -/
def TIMEOUT_TOKEN : Nat := u64_wrapping_sub 0x00 1

/-- `cqueue::Entry`: correlation field plus operation-specific result. -/
structure CompletionEntry where
  user_data : Nat
  result : Int
deriving Repr, DecidableEq

/-- `squeue::Entry`: an opcode, one numeric argument (duration for the
internal timeout record, unused otherwise) and the correlation field. -/
structure SubmissionEntry where
  op : Nat
  arg : Nat
  user_data : Nat
deriving Repr, DecidableEq

/-- `squeue::Entry::user_data(..)` builder. -/
def SubmissionEntry.withUserData (e : SubmissionEntry) (ud : Nat) : SubmissionEntry :=
  { e with user_data := ud }

/-- Phase of a ticket producer (`oneshot::Sender`) after `into_raw`. -/
inductive TicketPhase where
  | raw
  | delivered
  | dropped
deriving Repr, DecidableEq

/-- State of the ring plus the bookkeeping the claims observe.

`sqLog` is the ever-growing log of entries pushed into the submission queue,
`sqHead` the count of entries already handed to the kernel (so
`sqLog.drop sqHead` is the queue content).  `arrived` holds completions that
the kernel has produced, in kernel-report order.  `delivered` logs each
user-visible delivery as (reconstituted ticket identity, completion entry),
in delivery order.  `inflightWakeReads` counts eventfd `Readv` records that
have been handed to the kernel and whose completion has not yet arrived. -/
structure RingState where
  cap : Nat
  sqHead : Nat
  sqLog : List SubmissionEntry
  arrived : List CompletionEntry
  delivered : List (Nat × CompletionEntry)
  tickets : List (Nat × TicketPhase)
  nextTicket : Nat
  efdPending : Bool
  inflightWakeReads : Nat
deriving Repr, DecidableEq

/-- Correlation values the drain treats as reserved (lib.rs:62). -/
def isSentinel (u : Nat) : Bool :=
  u == EVENT_TOKEN || u == TIMEOUT_TOKEN

/-- `C::from_raw(ptr).set(entry.clone())` (lib.rs:63-65): reconstitute the
producer from the correlation field and deliver the completion to it. -/
def deliverOne (st : RingState) (e : CompletionEntry) : RingState :=
  { st with
    delivered := st.delivered ++ [(e.user_data, e)]
    tickets := st.tickets.map
      (fun p => if p.1 = e.user_data then (p.1, TicketPhase.delivered) else p) }

/-- lib.rs:59-68 — `cq_drain`: scan a completion-queue view in order;
discard reserved sentinels, deliver everything else. -/
def cq_drain (st : RingState) (view : List CompletionEntry) : RingState :=
  view.foldl
    (fun s e => if isSentinel e.user_data then s else deliverOne s e) st

/-- `cq.available()` followed by a full drain, as in `LocalHandle::push`
(lib.rs:194): the view captures everything currently arrived. -/
def drainAvailable (st : RingState) : RingState :=
  cq_drain { st with arrived := [] } st.arrived

/-- `Submitter::submit` handing the queued entries to the kernel: the head
catches up with the log; wake-read records among the handed-over batch
become in-flight. -/
def consumeSq (st : RingState) : RingState :=
  { st with
    sqHead := st.sqLog.length
    inflightWakeReads := st.inflightWakeReads +
      ((st.sqLog.drop st.sqHead).filter
        (fun e => e.user_data == EVENT_TOKEN)).length }

/-- The user-visible deliveries a drain of `view` produces, in order. -/
def userDeliveries (view : List CompletionEntry) : List (Nat × CompletionEntry) :=
  (view.filter (fun e => !isSentinel e.user_data)).map (fun e => (e.user_data, e))

/-- Number of wake-read completions (EVENT_TOKEN) in an arrival batch. -/
def wakeCqes (view : List CompletionEntry) : Nat :=
  (view.filter (fun e => e.user_data == EVENT_TOKEN)).length

@[simp] theorem deliverOne_cap (st : RingState) (e : CompletionEntry) :
    (deliverOne st e).cap = st.cap := rfl

@[simp] theorem deliverOne_sqHead (st : RingState) (e : CompletionEntry) :
    (deliverOne st e).sqHead = st.sqHead := rfl

@[simp] theorem deliverOne_sqLog (st : RingState) (e : CompletionEntry) :
    (deliverOne st e).sqLog = st.sqLog := rfl

@[simp] theorem deliverOne_arrived (st : RingState) (e : CompletionEntry) :
    (deliverOne st e).arrived = st.arrived := rfl

@[simp] theorem deliverOne_delivered (st : RingState) (e : CompletionEntry) :
    (deliverOne st e).delivered = st.delivered ++ [(e.user_data, e)] := rfl

@[simp] theorem deliverOne_nextTicket (st : RingState) (e : CompletionEntry) :
    (deliverOne st e).nextTicket = st.nextTicket := rfl

@[simp] theorem deliverOne_efdPending (st : RingState) (e : CompletionEntry) :
    (deliverOne st e).efdPending = st.efdPending := rfl

@[simp] theorem deliverOne_inflight (st : RingState) (e : CompletionEntry) :
    (deliverOne st e).inflightWakeReads = st.inflightWakeReads := rfl

@[simp] theorem cq_drain_nil (st : RingState) : cq_drain st [] = st := rfl

theorem cq_drain_cons (st : RingState) (e : CompletionEntry) (v : List CompletionEntry) :
    cq_drain st (e :: v) =
      cq_drain (if isSentinel e.user_data then st else deliverOne st e) v := by
  simp [cq_drain]

@[simp] theorem cq_drain_cap (view : List CompletionEntry) (st : RingState) :
    (cq_drain st view).cap = st.cap := by
  induction view generalizing st with
  | nil => rfl
  | cons e v ih => rw [cq_drain_cons]; split <;> simp [ih]

@[simp] theorem cq_drain_sqHead (view : List CompletionEntry) (st : RingState) :
    (cq_drain st view).sqHead = st.sqHead := by
  induction view generalizing st with
  | nil => rfl
  | cons e v ih => rw [cq_drain_cons]; split <;> simp [ih]

@[simp] theorem cq_drain_sqLog (view : List CompletionEntry) (st : RingState) :
    (cq_drain st view).sqLog = st.sqLog := by
  induction view generalizing st with
  | nil => rfl
  | cons e v ih => rw [cq_drain_cons]; split <;> simp [ih]

@[simp] theorem cq_drain_arrived (view : List CompletionEntry) (st : RingState) :
    (cq_drain st view).arrived = st.arrived := by
  induction view generalizing st with
  | nil => rfl
  | cons e v ih => rw [cq_drain_cons]; split <;> simp [ih]

@[simp] theorem cq_drain_nextTicket (view : List CompletionEntry) (st : RingState) :
    (cq_drain st view).nextTicket = st.nextTicket := by
  induction view generalizing st with
  | nil => rfl
  | cons e v ih => rw [cq_drain_cons]; split <;> simp [ih]

@[simp] theorem cq_drain_efdPending (view : List CompletionEntry) (st : RingState) :
    (cq_drain st view).efdPending = st.efdPending := by
  induction view generalizing st with
  | nil => rfl
  | cons e v ih => rw [cq_drain_cons]; split <;> simp [ih]

@[simp] theorem cq_drain_inflight (view : List CompletionEntry) (st : RingState) :
    (cq_drain st view).inflightWakeReads = st.inflightWakeReads := by
  induction view generalizing st with
  | nil => rfl
  | cons e v ih => rw [cq_drain_cons]; split <;> simp [ih]

@[simp] theorem userDeliveries_nil : userDeliveries [] = [] := rfl

theorem userDeliveries_cons (e : CompletionEntry) (v : List CompletionEntry) :
    userDeliveries (e :: v) =
      if isSentinel e.user_data then userDeliveries v
      else (e.user_data, e) :: userDeliveries v := by
  by_cases h : isSentinel e.user_data <;>
    simp [userDeliveries, List.filter_cons, h]

theorem cq_drain_delivered (view : List CompletionEntry) (st : RingState) :
    (cq_drain st view).delivered = st.delivered ++ userDeliveries view := by
  induction view generalizing st with
  | nil => simp
  | cons e v ih =>
    rw [cq_drain_cons, userDeliveries_cons]
    by_cases h : isSentinel e.user_data <;> simp [h, ih]

@[simp] theorem consumeSq_cap (st : RingState) : (consumeSq st).cap = st.cap := rfl

@[simp] theorem consumeSq_sqLog (st : RingState) : (consumeSq st).sqLog = st.sqLog := rfl

@[simp] theorem consumeSq_sqHead (st : RingState) :
    (consumeSq st).sqHead = st.sqLog.length := rfl

@[simp] theorem consumeSq_arrived (st : RingState) :
    (consumeSq st).arrived = st.arrived := rfl

@[simp] theorem consumeSq_delivered (st : RingState) :
    (consumeSq st).delivered = st.delivered := rfl

@[simp] theorem consumeSq_tickets (st : RingState) :
    (consumeSq st).tickets = st.tickets := rfl

@[simp] theorem consumeSq_nextTicket (st : RingState) :
    (consumeSq st).nextTicket = st.nextTicket := rfl

@[simp] theorem consumeSq_efdPending (st : RingState) :
    (consumeSq st).efdPending = st.efdPending := rfl

/-- Outcome of one kernel `submit` / `submit_and_wait` call, supplied by the
environment.  `fail c` is an `io::Error` with raw OS error code `c`. -/
inductive SubmitOutcome where
  | ok
  | fail (code : Nat)
deriving Repr, DecidableEq

/-- `libc::EBUSY` on Linux. -/
def EBUSY : Nat := 16

/-- Environment of one `park` call: the kernel response to the capacity
flush (lib.rs:133), the response to the final submit (lib.rs:146-150), and
the completions that arrive during that final submit / blocking wait, in
kernel-report order. -/
structure ParkEnv where
  flushRes : SubmitOutcome
  finalRes : SubmitOutcome
  newArr : List CompletionEntry
deriving Repr, DecidableEq

/-- lib.rs:107-109 — the internal wake-read record: `Readv` on the eventfd,
tagged `EVENT_TOKEN`. -/
def eventEntry : SubmissionEntry :=
  { op := 1, arg := 0, user_data := EVENT_TOKEN }

/-- lib.rs:123-125 — the internal timeout record for duration `d`, tagged
`TIMEOUT_TOKEN`. -/
def timeoutEntry (d : Nat) : SubmissionEntry :=
  { op := 11, arg := d, user_data := TIMEOUT_TOKEN }

/-- Result of an `sq.push` attempt through the stale `AvailableQueue` view:
the new shared state, the view's new tail, and the entry if it was dropped
(push failed and its `Result` was discarded, lib.rs:137-143). -/
structure PushViewResult where
  st : RingState
  vtail : Nat
  dropped : List SubmissionEntry
deriving Repr, DecidableEq

/-- `sq.push(entry)` against a view whose head was snapshotted at `vhead`:
fails (entry dropped) when the view believes the queue is full; on success
the entry is published to the shared log. -/
def sqPushView (st : RingState) (vhead vtail : Nat) (e : SubmissionEntry) :
    PushViewResult :=
  if vtail - vhead < st.cap then
    ⟨{ st with sqLog := st.sqLog ++ [e] }, vtail + 1, []⟩
  else
    ⟨st, vtail, [e]⟩

/-- `if let Some(entry) = .. { let _ = sq.push(entry); }` (lib.rs:137-143). -/
def sqPushViewOpt (st : RingState) (vhead vtail : Nat) :
    Option SubmissionEntry → PushViewResult
  | none => ⟨st, vtail, []⟩
  | some e => sqPushView st vhead vtail e

/-- What a completed `park` call reports to the model: the final state,
whether the blocking `submit_and_wait` branch was taken, the internal
records it built, the internal records whose push was silently dropped, the
number of eventfd resets performed, and the number of wake-read records in
flight in the kernel at the moment the final submit/wait started. -/
structure ParkResult where
  st : RingState
  usedBlocking : Bool
  scheduledInternal : List SubmissionEntry
  droppedInternal : List SubmissionEntry
  resetCount : Nat
  armedDuringWait : Nat
deriving Repr, DecidableEq

/-- `park` either returns `Ok(())` with a `ParkResult`, or propagates an OS
error; on the error paths it reports the state reached and how many eventfd
resets were performed before returning. -/
inductive ParkOutcome where
  | ok (r : ParkResult)
  | fail (code : Nat) (st : RingState) (resetCount : Nat)
deriving Repr, DecidableEq

/-- lib.rs:136-160 — the tail of `park` after the capacity flush decision:
push the scheduled internal records through the stale view, perform the
final submit (blocking iff not `nowait`), sync and drain the completion
queue again, reset the eventfd. -/
def parkAfterFlush (st2 : RingState) (eventE timeoutE : Option SubmissionEntry)
    (nowait : Bool) (vhead vtail : Nat) (env : ParkEnv) : ParkOutcome :=
  let p1 := sqPushViewOpt st2 vhead vtail eventE
  let p2 := sqPushViewOpt p1.st vhead p1.vtail timeoutE
  match env.finalRes with
  | SubmitOutcome.fail c => ParkOutcome.fail c p2.st 0
  | SubmitOutcome.ok =>
    let st5 := consumeSq p2.st
    let st6 := { st5 with
      arrived := env.newArr
      inflightWakeReads := st5.inflightWakeReads - wakeCqes env.newArr }
    let st7 := cq_drain { st6 with arrived := [] } st6.arrived
    ParkOutcome.ok
      { st := { st7 with efdPending := false }
        usedBlocking := !nowait
        scheduledInternal := eventE.toList ++ timeoutE.toList
        droppedInternal := p1.dropped ++ p2.dropped
        resetCount := 1
        armedDuringWait := st5.inflightWakeReads }

/-- lib.rs:95-160 — `Proactor::park`.  Steps, in source order: capture the
completion-queue view and its emptiness (lib.rs:98-99); first drain
(lib.rs:102); build the wake-read record iff the eventfd is pending
(lib.rs:104-113); decide `nowait` (lib.rs:116-118); build the timeout record
iff a duration was given and not `nowait` (lib.rs:120-129); if the stale
submission-queue view lacks room for the internal records, flush
(lib.rs:131-134, `?` propagates failure); push the internal records through
the still-stale view, discarding push failures (lib.rs:136-144); final
submit or blocking submit-and-wait (lib.rs:146-150, `?` propagates failure);
`cq.sync()` and second drain (lib.rs:152-154); reset the eventfd
(lib.rs:157). -/
def park (st0 : RingState) (dur : Option Nat) (env : ParkEnv) : ParkOutcome :=
  let view := st0.arrived
  let st1 := cq_drain { st0 with arrived := [] } view
  let eventE := if st1.efdPending then some eventEntry else none
  let nowait := eventE.isSome || !view.isEmpty || dur == some 0
  let timeoutE := if nowait then none else Option.map timeoutEntry dur
  let n := eventE.toList.length + timeoutE.toList.length
  if st1.cap - (st1.sqLog.length - st1.sqHead) < n then
    match env.flushRes with
    | SubmitOutcome.fail c => ParkOutcome.fail c st1 0
    | SubmitOutcome.ok =>
      parkAfterFlush (consumeSq st1) eventE timeoutE nowait
        st1.sqHead st1.sqLog.length env
  else
    parkAfterFlush st1 eventE timeoutE nowait st1.sqHead st1.sqLog.length env

/-- `Proactor::new` (lib.rs:71-85): ring of capacity 256, nothing queued,
nothing arrived, eventfd idle, no wake-read in flight. -/
def proactorNew : RingState :=
  { cap := 256, sqHead := 0, sqLog := [], arrived := [], delivered := []
    tickets := [], nextTicket := 1, efdPending := false, inflightWakeReads := 0 }

def ParkOutcome.isOk : ParkOutcome → Bool
  | .ok _ => true
  | .fail _ _ _ => false

def ParkOutcome.stateOf : ParkOutcome → RingState
  | .ok r => r.st
  | .fail _ st _ => st

def ParkOutcome.resetCountOf : ParkOutcome → Nat
  | .ok r => r.resetCount
  | .fail _ _ k => k

def ParkOutcome.usedBlockingOf : ParkOutcome → Bool
  | .ok r => r.usedBlocking
  | .fail _ _ _ => false

def ParkOutcome.scheduledOf : ParkOutcome → List SubmissionEntry
  | .ok r => r.scheduledInternal
  | .fail _ _ _ => []

def ParkOutcome.droppedOf : ParkOutcome → List SubmissionEntry
  | .ok r => r.droppedInternal
  | .fail _ _ _ => []

/-- Modelled from the spec: the Wake Signal (`EventFd`, module `waker` —
declared in lib.rs:3 but not present under `src/`).  Per §4.4, `signal()`
sets the pending flag and notifies the OS-visible event object, and a
kernel-level blocking wait wakes through it only while the ring is watching
that object; the ring watches the eventfd only through a submitted read on
it (the `EVENT_TOKEN` `Readv` that `park` builds at lib.rs:107-109), whose
completion is what ends `submit_and_wait`.  Hence a `signal()` arriving
while this `park` call is blocked in `submit_and_wait` can end that wait if
and only if the call blocks at all and a wake-read is in flight in the
kernel at that moment. -/
def signalInterruptsBlockedWait (st0 : RingState) (dur : Option Nat)
    (env : ParkEnv) : Bool :=
  match park st0 dur env with
  | ParkOutcome.ok r => r.usedBlocking && decide (0 < r.armedDuringWait)
  | ParkOutcome.fail _ _ _ => false

/-- Error surfaced by `LocalHandle::push`: either the "Proactor closed"
disconnection (lib.rs:175, `io::ErrorKind::NotConnected`) or an OS error
with the given raw code. -/
inductive PushErr where
  | disconnected
  | os (code : Nat)
deriving Repr, DecidableEq

/-- The world a `LocalHandle` lives in: the `Weak<RefCell<IoUring>>` upgrade
succeeds iff the owning `Proactor` is still alive.  Cloning a handle shares
the same weak reference, so every clone observes the same `alive`. -/
structure World where
  alive : Bool
  st : RingState
deriving Repr, DecidableEq

/-- `Rc::downgrade` invalidation: destroying the Proactor makes every
previously cloned handle's upgrade fail from then on. -/
def destroyProactor (w : World) : World :=
  { w with alive := false }

/-- The push attempt at the top of the retry loop (lib.rs:186): fails iff
the freshly created `sq.available()` view sees the queue full. -/
def sqFull (st : RingState) : Bool :=
  decide (st.cap ≤ st.sqLog.length - st.sqHead)

/-- A successful enqueue through a fresh view. -/
def sqPushFresh (st : RingState) (e : SubmissionEntry) : RingState :=
  { st with sqLog := st.sqLog ++ [e] }

/-- Successful result of `LocalHandle::push`: the new world, the receiver
(the consumer side of the ticket, carrying the ticket identity), and how
many kernel submit calls and completion-drain passes the loop performed. -/
structure PushOk where
  w : World
  receiver : Nat
  submitCalls : Nat
  drainCalls : Nat
deriving Repr, DecidableEq

/-- Result of `LocalHandle::push`; the error case carries the world state at
the moment of the early return. -/
inductive PushRes where
  | ok (r : PushOk)
  | err (e : PushErr) (w : World)
deriving Repr, DecidableEq

/-- lib.rs:183-199 — the retry loop of `LocalHandle::push`.  Each iteration
re-creates the submission-queue view, attempts the push (breaking on
success), and otherwise flushes: a flush error equal to `EBUSY` drains the
available completions and retries the flush once via `submitter.submit()?`
(whose failure, `EBUSY` included, is propagated); any other flush error is
propagated.  The oracle supplies one kernel response per submit call;
`none` means the oracle was exhausted before the loop settled. -/
def pushLoop (entry : SubmissionEntry) :
    List SubmitOutcome → RingState → Nat → Nat →
      Option (Except (PushErr × RingState) (RingState × Nat × Nat))
  | [], st, submits, drains =>
    if sqFull st then none
    else some (Except.ok (sqPushFresh st entry, submits, drains))
  | o :: rest, st, submits, drains =>
    if sqFull st then
      match o with
      | SubmitOutcome.ok => pushLoop entry rest (consumeSq st) (submits + 1) drains
      | SubmitOutcome.fail c =>
        if c = EBUSY then
          match rest with
          | [] => none
          | o2 :: rest2 =>
            let std := drainAvailable st
            match o2 with
            | SubmitOutcome.ok =>
              pushLoop entry rest2 (consumeSq std) (submits + 2) (drains + 1)
            | SubmitOutcome.fail c2 =>
              some (Except.error (PushErr.os c2, std))
        else some (Except.error (PushErr.os c, st))
    else some (Except.ok (sqPushFresh st entry, submits, drains))

/-- `oneshot::channel()` plus `tx.into_raw()` (lib.rs:177,181): allocate a
fresh ticket identity; the producer is now at large, embedded in a record's
correlation field, in phase `raw`. -/
def pushAlloc (st : RingState) : RingState :=
  { st with
    nextTicket := st.nextTicket + 1
    tickets := st.tickets ++ [(st.nextTicket, TicketPhase.raw)] }

/-- lib.rs:173-201 — `LocalHandle::push`: upgrade the weak ring reference
(failing with the disconnected error if the Proactor is gone), allocate a
ticket pair, convert the producer to its raw identity and embed it in the
record's correlation field, then run the retry loop.  On a loop error the
raw producer identity stays embedded in the discarded record: the ticket
remains in phase `raw` (the source never reconstitutes or drops it). -/
def push (w : World) (entry : SubmissionEntry) (oracle : List SubmitOutcome) :
    Option PushRes :=
  if w.alive then
    let id := w.st.nextTicket
    let st0 := pushAlloc w.st
    let tagged := entry.withUserData id
    match pushLoop tagged oracle st0 0 0 with
    | none => none
    | some (Except.ok (st1, submits, drains)) =>
      some (PushRes.ok
        { w := { alive := true, st := st1 }
          receiver := id, submitCalls := submits, drainCalls := drains })
    | some (Except.error (e, st1)) =>
      some (PushRes.err e { alive := true, st := st1 })
  else
    some (PushRes.err PushErr.disconnected w)

def pushErrCode : Option PushRes → Option PushErr
  | some (PushRes.err e _) => some e
  | some (PushRes.ok _) => none
  | none => none

def pushTickets : Option PushRes → List (Nat × TicketPhase)
  | some (PushRes.err _ w) => w.st.tickets
  | some (PushRes.ok r) => r.w.st.tickets
  | none => []

@[simp] theorem sqPushViewOpt_st_cap (st : RingState) (vh vt : Nat)
    (oe : Option SubmissionEntry) : (sqPushViewOpt st vh vt oe).st.cap = st.cap := by
  cases oe <;> simp [sqPushViewOpt, sqPushView] <;> split <;> rfl

@[simp] theorem sqPushViewOpt_st_sqHead (st : RingState) (vh vt : Nat)
    (oe : Option SubmissionEntry) : (sqPushViewOpt st vh vt oe).st.sqHead = st.sqHead := by
  cases oe <;> simp [sqPushViewOpt, sqPushView] <;> split <;> rfl

@[simp] theorem sqPushViewOpt_st_arrived (st : RingState) (vh vt : Nat)
    (oe : Option SubmissionEntry) : (sqPushViewOpt st vh vt oe).st.arrived = st.arrived := by
  cases oe <;> simp [sqPushViewOpt, sqPushView] <;> split <;> rfl

@[simp] theorem sqPushViewOpt_st_delivered (st : RingState) (vh vt : Nat)
    (oe : Option SubmissionEntry) :
    (sqPushViewOpt st vh vt oe).st.delivered = st.delivered := by
  cases oe <;> simp [sqPushViewOpt, sqPushView] <;> split <;> rfl

@[simp] theorem sqPushViewOpt_st_tickets (st : RingState) (vh vt : Nat)
    (oe : Option SubmissionEntry) :
    (sqPushViewOpt st vh vt oe).st.tickets = st.tickets := by
  cases oe <;> simp [sqPushViewOpt, sqPushView] <;> split <;> rfl

@[simp] theorem sqPushViewOpt_st_nextTicket (st : RingState) (vh vt : Nat)
    (oe : Option SubmissionEntry) :
    (sqPushViewOpt st vh vt oe).st.nextTicket = st.nextTicket := by
  cases oe <;> simp [sqPushViewOpt, sqPushView] <;> split <;> rfl

@[simp] theorem sqPushViewOpt_st_efdPending (st : RingState) (vh vt : Nat)
    (oe : Option SubmissionEntry) :
    (sqPushViewOpt st vh vt oe).st.efdPending = st.efdPending := by
  cases oe <;> simp [sqPushViewOpt, sqPushView] <;> split <;> rfl

@[simp] theorem sqPushViewOpt_st_inflight (st : RingState) (vh vt : Nat)
    (oe : Option SubmissionEntry) :
    (sqPushViewOpt st vh vt oe).st.inflightWakeReads = st.inflightWakeReads := by
  cases oe <;> simp [sqPushViewOpt, sqPushView] <;> split <;> rfl

theorem parkAfterFlush_ok (st2 : RingState) (eventE timeoutE : Option SubmissionEntry)
    (nowait : Bool) (vh vt : Nat) (env : ParkEnv) (r : ParkResult)
    (h : parkAfterFlush st2 eventE timeoutE nowait vh vt env = ParkOutcome.ok r) :
    r.st.delivered = st2.delivered ++ userDeliveries env.newArr ∧
    r.st.arrived = [] ∧
    r.st.efdPending = false ∧
    r.resetCount = 1 ∧
    r.usedBlocking = !nowait ∧
    r.scheduledInternal = eventE.toList ++ timeoutE.toList := by
  unfold parkAfterFlush at h
  split at h
  · exact absurd h (by simp)
  · cases h
    refine ⟨?_, ?_, ?_, rfl, rfl, rfl⟩
    · simp [cq_drain_delivered]
    · simp
    · simp

theorem parkAfterFlush_fail (st2 : RingState) (eventE timeoutE : Option SubmissionEntry)
    (nowait : Bool) (vh vt : Nat) (env : ParkEnv) (c : Nat) (s : RingState) (k : Nat)
    (h : parkAfterFlush st2 eventE timeoutE nowait vh vt env = ParkOutcome.fail c s k) :
    k = 0 ∧ s.efdPending = st2.efdPending := by
  unfold parkAfterFlush at h
  split at h
  · cases h
    constructor
    · rfl
    · simp
  · exact absurd h (by simp)


theorem eventE_tokens (b : Bool) :
    ∀ e ∈ (if b then some eventEntry else none).toList,
      e.user_data = EVENT_TOKEN := by
  cases b <;> simp [eventEntry]

theorem timeoutE_tokens (c : Bool) (dur : Option Nat) :
    ∀ e ∈ (if c then none else Option.map timeoutEntry dur).toList,
      e.user_data = TIMEOUT_TOKEN := by
  cases c <;> cases dur <;> simp [timeoutEntry]

/-- Shared characterization of a successful `park` call, from which the
claim theorems project their conjuncts. -/
theorem park_ok_spec (st0 : RingState) (dur : Option Nat) (env : ParkEnv)
    (r : ParkResult) (h : park st0 dur env = ParkOutcome.ok r) :
    r.st.delivered =
      st0.delivered ++ userDeliveries st0.arrived ++ userDeliveries env.newArr ∧
    r.st.arrived = [] ∧
    r.st.efdPending = false ∧
    r.resetCount = 1 ∧
    r.usedBlocking = !(st0.efdPending || !st0.arrived.isEmpty || dur == some 0) ∧
    (∀ e ∈ r.scheduledInternal,
      e.user_data = EVENT_TOKEN ∨ e.user_data = TIMEOUT_TOKEN) := by
  simp only [park] at h
  set stD := cq_drain { st0 with arrived := [] } st0.arrived with hstD
  set eE := (if stD.efdPending = true then some eventEntry else none) with heE
  set nw := (eE.isSome || !st0.arrived.isEmpty || dur == some 0) with hnw
  set tE := (if nw = true then none else Option.map timeoutEntry dur) with htE
  have hpend2 : stD.efdPending = st0.efdPending := by rw [hstD]; simp
  have hdel2 : stD.delivered = st0.delivered ++ userDeliveries st0.arrived := by
    rw [hstD]; simp [cq_drain_delivered]
  split at h
  · split at h
    · exact absurd h (by simp)
    · have hh := parkAfterFlush_ok _ _ _ _ _ _ _ _ h
      refine ⟨?_, hh.2.1, hh.2.2.1, hh.2.2.2.1, ?_, ?_⟩
      · rw [hh.1]
        simp [hdel2]
      · rw [hh.2.2.2.2.1, hnw, heE, hpend2]
        cases st0.efdPending <;> simp
      · intro e he
        rw [hh.2.2.2.2.2] at he
        rcases List.mem_append.mp he with h1 | h1
        · rw [heE] at h1
          exact Or.inl (eventE_tokens _ e h1)
        · rw [htE] at h1
          exact Or.inr (timeoutE_tokens _ _ e h1)
  · have hh := parkAfterFlush_ok _ _ _ _ _ _ _ _ h
    refine ⟨?_, hh.2.1, hh.2.2.1, hh.2.2.2.1, ?_, ?_⟩
    · rw [hh.1]
      simp [hdel2]
    · rw [hh.2.2.2.2.1, hnw, heE, hpend2]
      cases st0.efdPending <;> simp
    · intro e he
      rw [hh.2.2.2.2.2] at he
      rcases List.mem_append.mp he with h1 | h1
      · rw [heE] at h1
        exact Or.inl (eventE_tokens _ e h1)
      · rw [htE] at h1
        exact Or.inr (timeoutE_tokens _ _ e h1)

/-- Shared characterization of a failed `park` call: no eventfd reset was
performed, and the pending flag is what it was at entry. -/
theorem park_fail_spec (st0 : RingState) (dur : Option Nat) (env : ParkEnv)
    (c : Nat) (s : RingState) (k : Nat)
    (h : park st0 dur env = ParkOutcome.fail c s k) :
    k = 0 ∧ s.efdPending = st0.efdPending := by
  simp only [park] at h
  set stD := cq_drain { st0 with arrived := [] } st0.arrived with hstD
  set eE := (if stD.efdPending = true then some eventEntry else none) with heE
  set nw := (eE.isSome || !st0.arrived.isEmpty || dur == some 0) with hnw
  set tE := (if nw = true then none else Option.map timeoutEntry dur) with htE
  have hpend2 : stD.efdPending = st0.efdPending := by rw [hstD]; simp
  split at h
  · split at h
    · injection h with h1 h2 h3
      refine ⟨h3.symm, ?_⟩
      rw [← h2, hpend2]
    · have hh := parkAfterFlush_fail _ _ _ _ _ _ _ _ _ _ h
      refine ⟨hh.1, ?_⟩
      rw [hh.2]
      simp [hpend2]
  · have hh := parkAfterFlush_fail _ _ _ _ _ _ _ _ _ _ h
    refine ⟨hh.1, ?_⟩
    rw [hh.2, hpend2]

/-! Concrete inputs used by counterexamples and witnesses. -/

/-- A user submission record already queued in some scenarios. -/
def dummyE : SubmissionEntry := { op := 0, arg := 0, user_data := 7 }

def exCqe5 : CompletionEntry := { user_data := 5, result := 3 }

def exCqe9 : CompletionEntry := { user_data := 9, result := 0 }

/-- A timeout-sentinel completion, as the kernel reports it. -/
def exCqeTimeout : CompletionEntry := { user_data := TIMEOUT_TOKEN, result := 0 }

def c1st : RingState :=
  { cap := 8, sqHead := 0, sqLog := [], arrived := [exCqe5, exCqeTimeout]
    delivered := [], tickets := [(5, TicketPhase.raw)], nextTicket := 1
    efdPending := false, inflightWakeReads := 0 }

def c1env : ParkEnv := { flushRes := SubmitOutcome.ok, finalRes := SubmitOutcome.ok, newArr := [exCqe9] }

def c2st : RingState :=
  { cap := 8, sqHead := 0, sqLog := [], arrived := [], delivered := []
    tickets := [], nextTicket := 1, efdPending := true, inflightWakeReads := 0 }

def c2env : ParkEnv := { flushRes := SubmitOutcome.ok, finalRes := SubmitOutcome.ok, newArr := [] }

def c5st : RingState :=
  { cap := 1, sqHead := 0, sqLog := [dummyE], arrived := [], delivered := []
    tickets := [], nextTicket := 1, efdPending := true, inflightWakeReads := 0 }

def c5env : ParkEnv := { flushRes := SubmitOutcome.ok, finalRes := SubmitOutcome.ok, newArr := [] }

def c6st : RingState :=
  { cap := 4, sqHead := 0, sqLog := [], arrived := [], delivered := []
    tickets := [], nextTicket := 1, efdPending := true, inflightWakeReads := 0 }

def c6env : ParkEnv := { flushRes := SubmitOutcome.ok, finalRes := SubmitOutcome.fail 5, newArr := [] }

def c6wst : RingState :=
  { cap := 4, sqHead := 0, sqLog := [], arrived := [], delivered := []
    tickets := [], nextTicket := 1, efdPending := true, inflightWakeReads := 0 }

def c6wenv : ParkEnv := { flushRes := SubmitOutcome.ok, finalRes := SubmitOutcome.ok, newArr := [] }

def c8env : ParkEnv := { flushRes := SubmitOutcome.ok, finalRes := SubmitOutcome.ok, newArr := [] }

def c9wst : RingState := { proactorNew with efdPending := true }

def c9wenv : ParkEnv := { flushRes := SubmitOutcome.ok, finalRes := SubmitOutcome.ok, newArr := [] }

/-- C1: every `park` call that returns successfully has processed every
completion available at call time (`st0.arrived`) and every completion that
arrived during its blocking (`env.newArr`): the delivery log grows by
exactly those entries minus the reserved sentinels, each delivered exactly
once, in kernel-report order, paired with the ticket identity reconstituted
from its correlation field; nothing remains unprocessed in the view. -/
theorem C1_park_delivers_all (st0 : RingState) (dur : Option Nat) (env : ParkEnv)
    (h : (park st0 dur env).isOk = true) :
    (park st0 dur env).stateOf.delivered =
      st0.delivered ++ userDeliveries st0.arrived ++ userDeliveries env.newArr ∧
    (park st0 dur env).stateOf.arrived = [] := by
  cases hp : park st0 dur env with
  | fail c s k => rw [hp] at h; simp [ParkOutcome.isOk] at h
  | ok r =>
    have hs := park_ok_spec _ _ _ _ hp
    exact ⟨hs.1, hs.2.1⟩

theorem C1_witness :
    (park c1st (some 0) c1env).stateOf.delivered =
      c1st.delivered ++ userDeliveries c1st.arrived ++ userDeliveries c1env.newArr ∧
    (park c1st (some 0) c1env).stateOf.arrived = [] :=
  C1_park_delivers_all c1st (some 0) c1env (by decide)

/-- C2: a completed `park` call takes the non-blocking submit (instead of
the blocking submit-and-wait) if and only if the Wake Signal was pending at
entry, or the completion queue was non-empty at entry, or the caller passed
a duration of exactly zero; in particular a call made while the signal is
pending never blocks. -/
theorem C2_nowait_iff (st0 : RingState) (dur : Option Nat) (env : ParkEnv)
    (h : (park st0 dur env).isOk = true) :
    ((park st0 dur env).usedBlockingOf = false ↔
      (st0.efdPending = true ∨ st0.arrived ≠ [] ∨ dur = some 0)) := by
  cases hp : park st0 dur env with
  | fail c s k => rw [hp] at h; simp [ParkOutcome.isOk] at h
  | ok r =>
    have hs := park_ok_spec _ _ _ _ hp
    show r.usedBlocking = false ↔ _
    rw [hs.2.2.2.2.1]
    by_cases h1 : st0.efdPending = true <;>
      by_cases h2 : st0.arrived = [] <;>
        by_cases h3 : dur = some 0 <;>
          simp [h1, h2, h3]

theorem C2_witness :
    ((park c2st (some 5) c2env).usedBlockingOf = false ↔
      (c2st.efdPending = true ∨ c2st.arrived ≠ [] ∨ some 5 = some 0)) :=
  C2_nowait_iff c2st (some 5) c2env (by decide)

/-- C5: at the failing input — submission queue full (capacity 1, one
queued user record) and the Wake Signal pending — `park` does flush
(`flushRes` is consumed successfully), schedules the internal wake-read
record, but the subsequent push goes through the stale pre-flush queue view,
fails, and its failure is discarded: the call still returns `Ok`, the
wake-read record is silently dropped, and the submission queue log never
receives it.  The claim (and the spec) say both scheduled internal records
are successfully enqueued, never silently dropped. -/
theorem C5_wake_record_dropped :
    (park c5st none c5env).isOk = true ∧
    (park c5st none c5env).scheduledOf = [eventEntry] ∧
    (park c5st none c5env).droppedOf = [eventEntry] ∧
    (park c5st none c5env).stateOf.sqLog = [dummyE] := by decide

/-- C6 counterexample: a `park` call whose blocking submit fails returns the
error without resetting the Wake Signal: zero resets are performed and the
pending flag survives the call, refuting the claim that every `park` call
resets the signal exactly once unconditionally, including error returns. -/
theorem C6_counterexample :
    (park c6st none c6env).isOk = false ∧
    (park c6st none c6env).resetCountOf = 0 ∧
    (park c6st none c6env).stateOf.efdPending = true := by decide

/-- C6 (amended): every `park` call that returns successfully resets the
Wake Signal exactly once (regardless of whether the pending state was
consumed by submitting the wake-read record); a call that returns an error
from the flush or the blocking submit performs no reset and leaves the
pending flag exactly as it was at entry. -/
theorem C6_amended_reset (st0 : RingState) (dur : Option Nat) (env : ParkEnv) :
    ((park st0 dur env).isOk = true →
      (park st0 dur env).resetCountOf = 1 ∧
      (park st0 dur env).stateOf.efdPending = false) ∧
    ((park st0 dur env).isOk = false →
      (park st0 dur env).resetCountOf = 0 ∧
      (park st0 dur env).stateOf.efdPending = st0.efdPending) := by
  cases hp : park st0 dur env with
  | ok r =>
    have hs := park_ok_spec _ _ _ _ hp
    exact ⟨fun _ => ⟨hs.2.2.2.1, hs.2.2.1⟩,
           fun hc => by simp [ParkOutcome.isOk] at hc⟩
  | fail c s k =>
    have hs := park_fail_spec _ _ _ _ _ _ hp
    exact ⟨fun hc => by simp [ParkOutcome.isOk] at hc,
           fun _ => ⟨hs.1, hs.2⟩⟩

theorem C6_witness :
    (park c6wst none c6wenv).resetCountOf = 1 ∧
    (park c6wst none c6wenv).stateOf.efdPending = false :=
  (C6_amended_reset c6wst none c6wenv).1 (by decide)

/-- C8: at the failing input — a fresh Proactor, Wake Signal idle, empty
completion queue, `park(None)` — the call takes the blocking
submit-and-wait, yet no wake-read is in flight in the kernel during that
wait (`park` submits the eventfd read only when the signal was already
pending at entry, and such a call never blocks), so a `signal()` arriving
from another thread during the blocked wait produces no completion and
cannot interrupt it, contradicting the claim that every interleaving of
`signal()` with a blocked `park` interrupts the wait. -/
theorem C8_blocked_wait_not_wakeable :
    (park proactorNew none c8env).usedBlockingOf = true ∧
    signalInterruptsBlockedWait proactorNew none c8env = false := by decide

/-- C9: the two reserved sentinel correlation values are 0 (wake-read) and
the maximum representable 64-bit value 2^64-1 (timeout); they are distinct,
and every internal bookkeeping record a `park` call schedules carries one of
the two in its correlation field. -/
theorem C9_sentinel_tokens :
    EVENT_TOKEN = 0 ∧ TIMEOUT_TOKEN = 2 ^ 64 - 1 ∧ EVENT_TOKEN ≠ TIMEOUT_TOKEN ∧
    ∀ (st0 : RingState) (dur : Option Nat) (env : ParkEnv),
      ∀ e ∈ (park st0 dur env).scheduledOf,
        e.user_data = EVENT_TOKEN ∨ e.user_data = TIMEOUT_TOKEN := by
  refine ⟨rfl, by decide, by decide, ?_⟩
  intro st0 dur env e he
  cases hp : park st0 dur env with
  | fail c s k => rw [hp] at he; simp [ParkOutcome.scheduledOf] at he
  | ok r =>
    rw [hp] at he
    exact (park_ok_spec _ _ _ _ hp).2.2.2.2.2 e he

theorem C9_witness :
    eventEntry.user_data = EVENT_TOKEN ∨ eventEntry.user_data = TIMEOUT_TOKEN :=
  C9_sentinel_tokens.2.2.2 c9wst none c9wenv eventEntry (by decide)

@[simp] theorem pushAlloc_cap (st : RingState) : (pushAlloc st).cap = st.cap := rfl

@[simp] theorem pushAlloc_sqLog (st : RingState) : (pushAlloc st).sqLog = st.sqLog := rfl

@[simp] theorem pushAlloc_sqHead (st : RingState) : (pushAlloc st).sqHead = st.sqHead := rfl

def c3st : RingState :=
  { cap := 1, sqHead := 0, sqLog := [dummyE], arrived := [], delivered := []
    tickets := [], nextTicket := 42, efdPending := false, inflightWakeReads := 0 }

def c3w : World := { alive := true, st := c3st }

def c3wit : World :=
  { alive := true
    st := { cap := 1, sqHead := 0, sqLog := [dummyE], arrived := [], delivered := []
            tickets := [], nextTicket := 8, efdPending := false, inflightWakeReads := 0 } }

def c7st : RingState :=
  { cap := 1, sqHead := 0, sqLog := [dummyE], arrived := [], delivered := []
    tickets := [], nextTicket := 42, efdPending := false, inflightWakeReads := 0 }

def c7w : World := { alive := true, st := c7st }

def c10w : World :=
  { alive := true
    st := { cap := 4, sqHead := 0, sqLog := [dummyE], arrived := [], delivered := []
            tickets := [], nextTicket := 42, efdPending := false, inflightWakeReads := 0 } }

def c10e : SubmissionEntry := { op := 2, arg := 0, user_data := 0 }

/-- When the fresh view sees room, the retry loop succeeds immediately:
no oracle entry is consumed, no submit and no drain happens. -/
theorem pushLoop_not_full (entry : SubmissionEntry) (oracle : List SubmitOutcome)
    (st : RingState) (submits drains : Nat) (h : sqFull st = false) :
    pushLoop entry oracle st submits drains =
      some (Except.ok (sqPushFresh st entry, submits, drains)) := by
  cases oracle with
  | nil => simp [pushLoop, h]
  | cons o rest =>
    rw [pushLoop.eq_def]
    simp [h]

/-- C4: every `push` through a handle (or any clone, which shares the same
weak reference) whose Proactor has been destroyed fails with the
disconnected error, changes nothing, and does so on every subsequent call
for every record and every kernel behavior; the model is a total function,
so no call panics. -/
theorem C4_dead_handle_disconnected (w : World) (entry : SubmissionEntry)
    (oracle : List SubmitOutcome) :
    push (destroyProactor w) entry oracle =
      some (PushRes.err PushErr.disconnected (destroyProactor w)) := by
  simp [push, destroyProactor]

/-- C7: at the failing input — live handle, submission queue full, the
kernel answering the flush with a fatal (non-EBUSY) error 9 — `push`
propagates the error, and the ticket producer allocated by the call is left
in phase `raw`: its identity was embedded via `into_raw` into the discarded
record and is never reconstituted, dropped, or delivered, so the consumer
never observes cancellation.  The claim says the producer is dropped unused
and the consumer observes cancellation. -/
theorem C7_fatal_error_leaks_producer :
    pushErrCode (push c7w dummyE [SubmitOutcome.fail 9]) = some (PushErr.os 9) ∧
    pushTickets (push c7w dummyE [SubmitOutcome.fail 9]) =
      [(42, TicketPhase.raw)] := by decide

/-- C10: fast path of `push` — live handle, submission queue with free
space: the call appends exactly one record, tagged with the freshly
allocated ticket identity, returns that ticket's consumer, performs zero
kernel submit calls and zero completion drains, and modifies nothing else
(head, arrivals, deliveries, pending flag are all untouched, as the record
update shows). -/
theorem C10_fast_path_frame (w : World) (entry : SubmissionEntry)
    (oracle : List SubmitOutcome)
    (halive : w.alive = true)
    (hroom : w.st.sqLog.length - w.st.sqHead < w.st.cap) :
    push w entry oracle =
      some (PushRes.ok
        { w := { alive := true
                 st := { w.st with
                   sqLog := w.st.sqLog ++ [entry.withUserData w.st.nextTicket]
                   tickets := w.st.tickets ++ [(w.st.nextTicket, TicketPhase.raw)]
                   nextTicket := w.st.nextTicket + 1 } }
          receiver := w.st.nextTicket
          submitCalls := 0
          drainCalls := 0 }) := by
  have hfull : sqFull (pushAlloc w.st) = false := by
    simp only [sqFull, pushAlloc_cap, pushAlloc_sqLog, pushAlloc_sqHead,
      decide_eq_false_iff_not, not_le]
    exact hroom
  have hloop := pushLoop_not_full (entry.withUserData w.st.nextTicket) oracle
    (pushAlloc w.st) 0 0 hfull
  simp only [push, halive, if_true]
  rw [hloop]
  simp [sqPushFresh, pushAlloc]

theorem C10_witness :
    push c10w c10e [] =
      some (PushRes.ok
        { w := { alive := true
                 st := { c10w.st with
                   sqLog := c10w.st.sqLog ++ [c10e.withUserData c10w.st.nextTicket]
                   tickets := c10w.st.tickets ++ [(c10w.st.nextTicket, TicketPhase.raw)]
                   nextTicket := c10w.st.nextTicket + 1 } }
          receiver := c10w.st.nextTicket
          submitCalls := 0
          drainCalls := 0 }) :=
  C10_fast_path_frame c10w c10e [] (by decide) (by decide)

/-- C3 counterexample: with the submission queue full, a flush answered
`EBUSY` followed by a retry flush answered `EBUSY` again makes `push` return
the `EBUSY` error to the caller (`submitter.submit()?` at lib.rs:195
propagates it), refuting the claim that transient saturation is never
surfaced to the caller as an error. -/
theorem C3_counterexample :
    pushErrCode (push c3w dummyE
      [SubmitOutcome.fail EBUSY, SubmitOutcome.fail EBUSY]) =
      some (PushErr.os EBUSY) := by decide

/-- C3 (amended): through a live handle with the submission queue full,
`push` first flushes: if the flush succeeds the enqueue is retried and
succeeds (one submit, no drain); if the flush reports `EBUSY`, `push`
drains the available completions and retries the flush exactly once — when
that retry succeeds the enqueue is retried and succeeds (two submits, one
drain) and the `EBUSY` was absorbed, but when the retry flush itself fails
(`EBUSY` included) that error is propagated to the caller; any other flush
failure is propagated immediately. -/
theorem C3_amended_backpressure (w : World) (entry : SubmissionEntry)
    (rest : List SubmitOutcome) (c : Nat)
    (halive : w.alive = true) (hfull : sqFull w.st = true) (hcap : 0 < w.st.cap) :
    (push w entry [SubmitOutcome.ok] =
      some (PushRes.ok
        { w := { alive := true
                 st := sqPushFresh (consumeSq (pushAlloc w.st))
                         (entry.withUserData w.st.nextTicket) }
          receiver := w.st.nextTicket, submitCalls := 1, drainCalls := 0 })) ∧
    (push w entry [SubmitOutcome.fail EBUSY, SubmitOutcome.ok] =
      some (PushRes.ok
        { w := { alive := true
                 st := sqPushFresh (consumeSq (drainAvailable (pushAlloc w.st)))
                         (entry.withUserData w.st.nextTicket) }
          receiver := w.st.nextTicket, submitCalls := 2, drainCalls := 1 })) ∧
    (c ≠ EBUSY →
      push w entry (SubmitOutcome.fail c :: rest) =
        some (PushRes.err (PushErr.os c) { alive := true, st := pushAlloc w.st })) ∧
    (push w entry (SubmitOutcome.fail EBUSY :: SubmitOutcome.fail c :: rest) =
      some (PushRes.err (PushErr.os c)
        { alive := true, st := drainAvailable (pushAlloc w.st) })) := by
  have hfull1 : sqFull (pushAlloc w.st) = true := by
    simp only [sqFull, pushAlloc_cap, pushAlloc_sqLog, pushAlloc_sqHead]
    exact hfull
  have hns : ∀ s : RingState, s.cap = w.st.cap → sqFull (consumeSq s) = false := by
    intro s hc
    simp only [sqFull, consumeSq_cap, consumeSq_sqLog]
    rw [show (consumeSq s).sqHead = s.sqLog.length from rfl]
    simp only [Nat.sub_self, decide_eq_false_iff_not, not_le, hc]
    exact hcap
  have hq1 : sqFull (consumeSq (pushAlloc w.st)) = false := hns _ (by simp)
  have hq2 : sqFull (consumeSq (drainAvailable (pushAlloc w.st))) = false :=
    hns _ (by simp [drainAvailable])
  refine ⟨?_, ?_, ?_, ?_⟩
  · simp only [push, halive, if_true]
    simp [pushLoop.eq_def, hfull1, hq1]
  · simp only [push, halive, if_true]
    simp [pushLoop.eq_def, hfull1, hq2]
  · intro hc
    simp only [push, halive, if_true]
    simp [pushLoop.eq_def, hfull1, hc]
  · simp only [push, halive, if_true]
    simp [pushLoop.eq_def, hfull1]

theorem C3_witness :
    push c3wit dummyE [SubmitOutcome.ok] =
      some (PushRes.ok
        { w := { alive := true
                 st := sqPushFresh (consumeSq (pushAlloc c3wit.st))
                         (dummyE.withUserData c3wit.st.nextTicket) }
          receiver := c3wit.st.nextTicket, submitCalls := 1, drainCalls := 0 }) :=
  (C3_amended_backpressure c3wit dummyE [] 9 (by decide) (by decide) (by decide)).1
